import Mathlib

/-!
# Atomix Go client: list primitive, counter session handler, set watch options

A shallow embedding of

* `pkg/client/list/list.go` (the list primitive wrapper and its two receive loops),
* `pkg/client/counter/session.go` (the counter session handler),
* `pkg/atomix/set/options.go` (the set watch options),

followed by the properties established about them.

Conventions of the embedding.

* A Go `error` value is `Option Error` (`none` is `nil`); `io.EOF` is `Error.EOF`.
* A pointer that may be `nil` is an `Option`; dereferencing `none` is a panic.
* A gRPC client stream is the finite script of what successive `Recv()` calls
  return; a loop that has consumed the script is blocked in `Recv()`.
* Backend services are state-passing functions; every RPC that is issued is
  appended to a call log.
* A goroutine body returns the list of effects it performed, in order, and the
  way it ended.
-/

set_option linter.dupNamespace false

namespace Atomix

/-! ## Shared vocabulary -/

/-- Go `error` values that the embedded code distinguishes. -/
inductive Error where
  | EOF
  | InvalidArgument
  | Other (msg : String)
deriving DecidableEq, Repr

/-- Request header (`headers.RequestHeader`): the session and the request
sequence number. The declaration lives outside the embedded files. -/
structure RequestHeader where
  SessionID : Nat
  SequenceNumber : Nat
deriving DecidableEq, Repr

/-- One entry of `ResponseHeader.Streams`. -/
structure StreamHeader where
  StreamID : Nat
  Index : Nat
deriving DecidableEq, Repr

/-- Response header (`headers.ResponseHeader`); only `Streams` is read by the
embedded code. A response is taken with its header present. -/
structure ResponseHeader where
  Streams : List StreamHeader
deriving DecidableEq, Repr

/-- What one `Recv()` call on a client stream returns: `(response, err)`. -/
structure Recv (α : Type) where
  response : Option α
  err : Option Error
deriving DecidableEq, Repr

/-- What `_, ok := <-ch` observes on the channel returned by `WaitStream`:
a value (`ok = true`), a closed channel (`ok = false`), or nothing at all
(the receive never returns). -/
inductive WaitResult where
  | value
  | closed
  | blocked
deriving DecidableEq, Repr

/-- Effects of a receive goroutine, in program order. `send` is `ch <- e`. -/
inductive Effect (ε : Type) where
  | logError (msg : String) (err : Error)
  | waitStream (stream : StreamHeader)
  | send (e : ε)
  | closeChan
deriving DecidableEq, Repr

/-- How a receive goroutine ends. -/
inductive LoopEnd where
  | eof
  | panicked
  | blockedWait
  | blockedRecv
deriving DecidableEq, Repr

/-- The `for { ... }` of a receive goroutine: `body n x` is one iteration on the
result `x` of the `n`-th `Recv()`; it yields the iteration's effects and, when
the iteration leaves the loop, how. -/
def recvLoop {α ε : Type} (body : Nat → Recv α → List (Effect ε) × Option LoopEnd) :
    Nat → List (Recv α) → List (Effect ε) × LoopEnd
  | _, [] => ([], LoopEnd.blockedRecv)
  | n, x :: rest =>
    match body n x with
    | (effects, some e) => (effects, e)
    | (effects, none) =>
      (effects ++ (recvLoop body (n + 1) rest).1, (recvLoop body (n + 1) rest).2)

/-- The values sent on the caller's channel, in order. -/
def delivered {ε : Type} : List (Effect ε) → List ε
  | [] => []
  | Effect.send e :: rest => e :: delivered rest
  | _ :: rest => delivered rest

/-- The `WaitStream` calls made, in order. -/
def waits {ε : Type} : List (Effect ε) → List StreamHeader
  | [] => []
  | Effect.waitStream s :: rest => s :: waits rest
  | _ :: rest => waits rest

/-- The world a client talks to: the backend's state and the log of the RPCs
issued so far (`κ` is the type of a logged call). -/
structure World (β κ : Type) where
  backend : β
  calls : List κ

/-- Result of a Go function that may also panic. -/
inductive Outcome (α : Type) where
  | ok (a : α)
  | error (err : Error)
  | panic

/-- Go conversion `uint32(index)` of an `int`: the low 32 bits, read unsigned. -/
def uint32 (index : Int) : Nat := (index % 4294967296).toNat

namespace primitive

/-- Go `primitive.Name`; the embedded code reads only its `Name` field. -/
structure Name where
  Name : String
deriving DecidableEq, Repr

end primitive

namespace util

/-- Modelled from the spec: `util.GetPartitionIndex`, whose source is not among
the embedded files. A stable hash of the name reduced modulo the number of
partitions; fails with an invalid-argument error if that number is zero or the
name is empty. The hash itself is a parameter. -/
def GetPartitionIndex (hash : String → Nat) (name : String) (partitions : Nat) :
    Except Error Nat :=
  if partitions = 0 ∨ name = "" then Except.error Error.InvalidArgument
  else Except.ok (hash name % partitions)

end util

namespace session

/-- Modelled from the spec: the lifecycle states of a session of the missing
session package, as section 4.2 lists them. -/
inductive Lifecycle where
  | UNINITIALIZED
  | CREATING
  | OPEN
  | CLOSING
  | CLOSED
  | FAILED
deriving DecidableEq, Repr

/-- Modelled from the spec: the `session.Session` of `pkg/client/session`, whose
source is not among the embedded files. It carries the backend-assigned session
identifier, the last-issued request sequence number and the lifecycle state. -/
structure Session where
  SessionID : Nat
  sequence : Nat
  state : Lifecycle
deriving DecidableEq, Repr

/-- Modelled from the spec: `NextHeader()` of the missing session package. It
increments the request sequence number and returns a header carrying it. -/
def Session.NextHeader (s : Session) : RequestHeader × Session :=
  (⟨s.SessionID, s.sequence + 1⟩, { s with sequence := s.sequence + 1 })

/-- Modelled from the spec: `GetHeader()` of the missing session package (the
spec's `CurrentHeader`). It returns a header with the last-issued sequence number
and does not advance it. -/
def Session.GetHeader (s : Session) : RequestHeader :=
  ⟨s.SessionID, s.sequence⟩

/-- Modelled from the spec: `GetState()` of the missing session package, the
current header of the session. -/
def Session.GetState (s : Session) : RequestHeader :=
  ⟨s.SessionID, s.sequence⟩

/-- Go interface `session.Handler`, with the four methods `counter/session.go`
implements: one implementation per primitive type. Each method may issue RPCs
(logged in the world) and returns an `error`. -/
structure Handler (β κ : Type) where
  Create : Session → World β κ → Option Error × World β κ
  KeepAlive : Session → World β κ → Option Error × World β κ
  Close : Session → World β κ → Option Error × World β κ
  Delete : Session → World β κ → Option Error × World β κ

/-- Modelled from the spec: `session.New` of the missing session package. It
sends a create request with the current (empty) header through the handler; on
success the session is `OPEN`, on failure the error is surfaced. -/
def New {β κ : Type} (handler : Handler β κ) (w : World β κ) :
    Except Error Session × World β κ :=
  let s : Session := ⟨0, 0, Lifecycle.CREATING⟩
  match handler.Create s w with
  | (some err, w1) => (Except.error err, w1)
  | (none, w1) => (Except.ok { s with state := Lifecycle.OPEN }, w1)

/-- Modelled from the spec: `Session.Close()` of the missing session package.
After `CLOSED` it is a no-op returning success; otherwise it sends the close
request through the handler, surfaces its error, and ends `CLOSED` either way. -/
def Session.Close {β κ : Type} (handler : Handler β κ) (s : Session) (w : World β κ) :
    Option Error × Session × World β κ :=
  if s.state = Lifecycle.CLOSED then (none, s, w)
  else
    let r := handler.Close { s with state := Lifecycle.CLOSING } w
    (r.1, { s with state := Lifecycle.CLOSED }, r.2)

/-- Modelled from the spec: `Session.Delete()` of the missing session package.
Same rules as `Session.Close`, through the handler's `Delete`. -/
def Session.Delete {β κ : Type} (handler : Handler β κ) (s : Session) (w : World β κ) :
    Option Error × Session × World β κ :=
  if s.state = Lifecycle.CLOSED then (none, s, w)
  else
    let r := handler.Delete { s with state := Lifecycle.CLOSING } w
    (r.1, { s with state := Lifecycle.CLOSED }, r.2)

end session

namespace list

/-! ## `pkg/client/list/list.go` -/

/-- Go `type ListEventType string`. -/
abbrev ListEventType := String

/-- Constant `EventInserted`. -/
def EventInserted : ListEventType := "added"

/-- Constant `EventRemoved`. -/
def EventRemoved : ListEventType := "removed"

/-- Go `type ListEvent struct`. -/
structure ListEvent where
  Type_ : ListEventType
  Value : String
deriving DecidableEq, Repr

/-- The enum `pb.EventResponse_Type`: the two values the switch names, and any
other `int32` the wire may carry. -/
inductive EventResponse_Type where
  | ADDED
  | REMOVED
  | UNKNOWN (code : Int)
deriving DecidableEq, Repr

/-- Message `pb.EventResponse`. -/
structure EventResponse where
  Header : ResponseHeader
  Type_ : EventResponse_Type
  Value : String
deriving DecidableEq, Repr

/-- Message `pb.IterateResponse`. -/
structure IterateResponse where
  Value : String
deriving DecidableEq, Repr

/-- The `switch response.Type` of `Listen`: `var t ListEventType` keeps its zero
value when no case matches. -/
def eventType : EventResponse_Type → ListEventType
  | EventResponse_Type.ADDED => EventInserted
  | EventResponse_Type.REMOVED => EventRemoved
  | EventResponse_Type.UNKNOWN _ => ""

/-- One iteration of the goroutine of `Items` (list.go lines 143-152). -/
def itemsBody (_n : Nat) (x : Recv IterateResponse) :
    List (Effect String) × Option LoopEnd :=
  if x.err = some Error.EOF then
    ([Effect.closeChan], some LoopEnd.eof)
  else
    let logged : List (Effect String) :=
      match x.err with
      | some err => [Effect.logError "Failed to receive items stream" err]
      | none => []
    match x.response with
    | none => (logged, some LoopEnd.panicked)
    | some response => (logged ++ [Effect.send response.Value], none)

/-- The goroutine of `Items` run on the stream `entries`. -/
def itemsLoop (entries : List (Recv IterateResponse)) : List (Effect String) × LoopEnd :=
  recvLoop itemsBody 0 entries

/-- One iteration of the goroutine of `Listen` (list.go lines 169-202).
`WaitStream n stream` is what the receive on `l.session.WaitStream(stream)`
observes in iteration `n`. -/
def listenBody (WaitStream : Nat → StreamHeader → WaitResult) (n : Nat)
    (x : Recv EventResponse) : List (Effect ListEvent) × Option LoopEnd :=
  if x.err = some Error.EOF then
    ([], some LoopEnd.eof)
  else
    let logged : List (Effect ListEvent) :=
      match x.err with
      | some err => [Effect.logError "Failed to receive event stream" err]
      | none => []
    match x.response with
    | none => (logged, some LoopEnd.panicked)
    | some response =>
      let t := eventType response.Type_
      match response.Header.Streams with
      | [] => (logged ++ [Effect.send ⟨t, response.Value⟩], none)
      | stream :: _ =>
        match WaitStream n stream with
        | WaitResult.value =>
          (logged ++ [Effect.waitStream stream, Effect.send ⟨t, response.Value⟩], none)
        | WaitResult.closed => (logged ++ [Effect.waitStream stream], none)
        | WaitResult.blocked =>
          (logged ++ [Effect.waitStream stream], some LoopEnd.blockedWait)

/-- The goroutine of `Listen`, started at iteration `n`, on the stream `events`. -/
def listenLoop (WaitStream : Nat → StreamHeader → WaitResult) (n : Nat)
    (events : List (Recv EventResponse)) : List (Effect ListEvent) × LoopEnd :=
  recvLoop (listenBody WaitStream) n events

/-- A receive that succeeded: `(response, nil)`. -/
def received {α : Type} (response : α) : Recv α := ⟨some response, none⟩

/-- The delivery gate in the words of the specification: the response has no
stream headers, or the wait on the stream it references yields a value. -/
def passesGate (WaitStream : Nat → StreamHeader → WaitResult) (n : Nat)
    (r : EventResponse) : Bool :=
  match r.Header.Streams.head? with
  | none => true
  | some stream => decide (WaitStream n stream = WaitResult.value)

/-- The event the application sees for a response. -/
def eventOf (r : EventResponse) : ListEvent := ⟨eventType r.Type_, r.Value⟩

/-- Message `pb.AppendRequest`. -/
structure AppendRequest where
  Header : RequestHeader
  Value : String
deriving DecidableEq, Repr

/-- Message `pb.InsertRequest`; `Index` is a `uint32`. -/
structure InsertRequest where
  Header : RequestHeader
  Index : Nat
  Value : String
deriving DecidableEq, Repr

/-- Message `pb.GetRequest`; `Index` is a `uint32`. -/
structure GetRequest where
  Header : RequestHeader
  Index : Nat
deriving DecidableEq, Repr

/-- Message `pb.RemoveRequest`; `Index` is a `uint32`. -/
structure RemoveRequest where
  Header : RequestHeader
  Index : Nat
deriving DecidableEq, Repr

/-- Message `pb.SizeRequest`. -/
structure SizeRequest where
  Header : RequestHeader
deriving DecidableEq, Repr

/-- Message `pb.IterateRequest`. -/
structure IterateRequest where
  Header : RequestHeader
deriving DecidableEq, Repr

/-- Message `pb.EventRequest`. -/
structure EventRequest where
  Header : RequestHeader
deriving DecidableEq, Repr

/-- Message `pb.ClearRequest`. -/
structure ClearRequest where
  Header : RequestHeader
deriving DecidableEq, Repr

/-- Message `pb.GetResponse`. -/
structure GetResponse where
  Value : String

/-- Message `pb.RemoveResponse`. -/
structure RemoveResponse where
  Value : String

/-- Message `pb.SizeResponse`. -/
structure SizeResponse where
  Size : Int

/-- An RPC issued on the list service, with its request. -/
inductive Call where
  | Append (request : AppendRequest)
  | Insert (request : InsertRequest)
  | Get (request : GetRequest)
  | Remove (request : RemoveRequest)
  | Size (request : SizeRequest)
  | Iterate (request : IterateRequest)
  | Listen (request : EventRequest)
  | Clear (request : ClearRequest)
deriving DecidableEq, Repr

/-- The header of the request of a call. -/
def Call.Header : Call → RequestHeader
  | Call.Append r => r.Header
  | Call.Insert r => r.Header
  | Call.Get r => r.Header
  | Call.Remove r => r.Header
  | Call.Size r => r.Header
  | Call.Iterate r => r.Header
  | Call.Listen r => r.Header
  | Call.Clear r => r.Header

/-- Go interface `pb.ListServiceClient` as a state-passing backend. A unary RPC
returns `(response, err)`; a streaming RPC returns the client stream or an error. -/
structure ListServiceClient (β : Type) where
  Append : β → AppendRequest → Option Error × β
  Insert : β → InsertRequest → Option Error × β
  Get : β → GetRequest → Except Error GetResponse × β
  Remove : β → RemoveRequest → Except Error RemoveResponse × β
  Size : β → SizeRequest → Except Error SizeResponse × β
  Iterate : β → IterateRequest → Except Error (List (Recv IterateResponse)) × β
  Listen : β → EventRequest → Except Error (List (Recv EventResponse)) × β
  Clear : β → ClearRequest → Option Error × β

/-- Go `type list struct`. -/
structure list (β : Type) where
  name : primitive.Name
  client : ListServiceClient β
  session : session.Session

/-- Steps of `New` that the properties speak about. -/
inductive NewStep where
  | indexPartition (i : Nat)
  | sessionNew (name : primitive.Name)
deriving DecidableEq, Repr

/-- Go `newList`. `handlerOf client` is `&SessionHandler{client: client}`, whose
source is not among the embedded files. -/
def newList {β : Type} (handlerOf : ListServiceClient β → session.Handler β Call)
    (name : primitive.Name) (conn : ListServiceClient β) (w : World β Call) :
    Outcome (list β) × List NewStep × World β Call :=
  let client := conn
  let r := session.New (handlerOf client) w
  match r.1 with
  | Except.error err => (Outcome.error err, [NewStep.sessionNew name], r.2)
  | Except.ok sess => (Outcome.ok ⟨name, client, sess⟩, [NewStep.sessionNew name], r.2)

/-- Go `New`. A partition connection is identified with the list service client
built on it (`pb.NewListServiceClient(conn)`). -/
def New {β : Type} (hash : String → Nat)
    (handlerOf : ListServiceClient β → session.Handler β Call)
    (name : primitive.Name) (partitions : List (ListServiceClient β)) (w : World β Call) :
    Outcome (list β) × List NewStep × World β Call :=
  match util.GetPartitionIndex hash name.Name partitions.length with
  | Except.error err => (Outcome.error err, [], w)
  | Except.ok i =>
    match partitions.get? i with
    | none => (Outcome.panic, [NewStep.indexPartition i], w)
    | some conn =>
      let r := newList handlerOf name conn w
      (r.1, NewStep.indexPartition i :: r.2.1, r.2.2)

/-- Go `(*list).Append`. -/
def list.Append {β : Type} (l : list β) (w : World β Call) (value : String) :
    Option Error × list β × World β Call :=
  let h := l.session.NextHeader
  let request : AppendRequest := ⟨h.1, value⟩
  let r := l.client.Append w.backend request
  (r.1, { l with session := h.2 }, ⟨r.2, w.calls ++ [Call.Append request]⟩)

/-- Go `(*list).Insert`. -/
def list.Insert {β : Type} (l : list β) (w : World β Call) (index : Int) (value : String) :
    Option Error × list β × World β Call :=
  let h := l.session.NextHeader
  let request : InsertRequest := ⟨h.1, uint32 index, value⟩
  let r := l.client.Insert w.backend request
  (r.1, { l with session := h.2 }, ⟨r.2, w.calls ++ [Call.Insert request]⟩)

/-- Go `(*list).Get`. -/
def list.Get {β : Type} (l : list β) (w : World β Call) (index : Int) :
    (String × Option Error) × list β × World β Call :=
  let request : GetRequest := ⟨l.session.GetHeader, uint32 index⟩
  let r := l.client.Get w.backend request
  match r.1 with
  | Except.error err => (("", some err), l, ⟨r.2, w.calls ++ [Call.Get request]⟩)
  | Except.ok response =>
    ((response.Value, none), l, ⟨r.2, w.calls ++ [Call.Get request]⟩)

/-- Go `(*list).Remove`. -/
def list.Remove {β : Type} (l : list β) (w : World β Call) (index : Int) :
    (String × Option Error) × list β × World β Call :=
  let h := l.session.NextHeader
  let request : RemoveRequest := ⟨h.1, uint32 index⟩
  let r := l.client.Remove w.backend request
  match r.1 with
  | Except.error err =>
    (("", some err), { l with session := h.2 }, ⟨r.2, w.calls ++ [Call.Remove request]⟩)
  | Except.ok response =>
    ((response.Value, none), { l with session := h.2 },
      ⟨r.2, w.calls ++ [Call.Remove request]⟩)

/-- Go `(*list).Size`. -/
def list.Size {β : Type} (l : list β) (w : World β Call) :
    (Int × Option Error) × list β × World β Call :=
  let request : SizeRequest := ⟨l.session.GetHeader⟩
  let r := l.client.Size w.backend request
  match r.1 with
  | Except.error err => ((0, some err), l, ⟨r.2, w.calls ++ [Call.Size request]⟩)
  | Except.ok response =>
    ((response.Size, none), l, ⟨r.2, w.calls ++ [Call.Size request]⟩)

/-- Go `(*list).Items`, up to the `go` statement: the returned stream, when there
is one, is what the goroutine `itemsLoop` runs on. -/
def list.Items {β : Type} (l : list β) (w : World β Call) :
    (Option (List (Recv IterateResponse)) × Option Error) × list β × World β Call :=
  let request : IterateRequest := ⟨l.session.GetHeader⟩
  let r := l.client.Iterate w.backend request
  match r.1 with
  | Except.error err => ((none, some err), l, ⟨r.2, w.calls ++ [Call.Iterate request]⟩)
  | Except.ok entries =>
    ((some entries, none), l, ⟨r.2, w.calls ++ [Call.Iterate request]⟩)

/-- Go `(*list).Listen`, up to the `go` statement: the returned stream, when there
is one, is what the goroutine `listenLoop` runs on. -/
def list.Listen {β : Type} (l : list β) (w : World β Call) :
    (Option (List (Recv EventResponse)) × Option Error) × list β × World β Call :=
  let h := l.session.NextHeader
  let request : EventRequest := ⟨h.1⟩
  let r := l.client.Listen w.backend request
  match r.1 with
  | Except.error err =>
    ((none, some err), { l with session := h.2 }, ⟨r.2, w.calls ++ [Call.Listen request]⟩)
  | Except.ok events =>
    ((some events, none), { l with session := h.2 },
      ⟨r.2, w.calls ++ [Call.Listen request]⟩)

/-- Go `(*list).Clear`. -/
def list.Clear {β : Type} (l : list β) (w : World β Call) :
    Option Error × list β × World β Call :=
  let h := l.session.NextHeader
  let request : ClearRequest := ⟨h.1⟩
  let r := l.client.Clear w.backend request
  (r.1, { l with session := h.2 }, ⟨r.2, w.calls ++ [Call.Clear request]⟩)

/-- Go `(*list).Close`; `handler` is the handler the session was created with. -/
def list.Close {β κ : Type} (handler : session.Handler β κ) (l : list β) (w : World β κ) :
    Option Error × list β × World β κ :=
  let r := l.session.Close handler w
  (r.1, { l with session := r.2.1 }, r.2.2)

/-- Go `(*list).Delete`; `handler` is the handler the session was created with. -/
def list.Delete {β κ : Type} (handler : session.Handler β κ) (l : list β) (w : World β κ) :
    Option Error × list β × World β κ :=
  let r := l.session.Delete handler w
  (r.1, { l with session := r.2.1 }, r.2.2)

/-- An operation an application performs on a list handle. -/
inductive Op where
  | Append (value : String)
  | Insert (index : Int) (value : String)
  | Get (index : Int)
  | Remove (index : Int)
  | Size
  | Items
  | Listen
  | Clear
deriving DecidableEq, Repr

/-- The specification's classification: mutating or stream-subscribing calls. -/
def Op.sequenced : Op → Bool
  | Op.Append _ => true
  | Op.Insert _ _ => true
  | Op.Remove _ => true
  | Op.Clear => true
  | Op.Listen => true
  | Op.Get _ => false
  | Op.Size => false
  | Op.Items => false

/-- Perform one operation on the handle and keep the handle and the world. -/
def list.perform {β : Type} (lw : list β × World β Call) : Op → list β × World β Call
  | Op.Append value => (lw.1.Append lw.2 value).2
  | Op.Insert index value => (lw.1.Insert lw.2 index value).2
  | Op.Get index => (lw.1.Get lw.2 index).2
  | Op.Remove index => (lw.1.Remove lw.2 index).2
  | Op.Size => (lw.1.Size lw.2).2
  | Op.Items => (lw.1.Items lw.2).2
  | Op.Listen => (lw.1.Listen lw.2).2
  | Op.Clear => (lw.1.Clear lw.2).2

/-- Perform a sequence of operations on one handle, in order. -/
def list.run {β : Type} (l : list β) (w : World β Call) (ops : List Op) :
    list β × World β Call :=
  ops.foldl list.perform (l, w)

/-- The requests sent by a sequence of operations: the calls logged after those
already in the log. -/
def list.sent {β : Type} (l : list β) (w : World β Call) (ops : List Op) : List Call :=
  (list.run l w ops).2.calls.drop w.calls.length

/-- The sequence number the session has issued last once `op` has been performed
from a session whose last-issued number is `s`. -/
def seqAfter (s : Nat) (op : Op) : Nat :=
  if op.sequenced then s + 1 else s

/-- The sequence numbers a counter started at `s` hands to a run of operations. -/
def seqNumbers : Nat → List Op → List Nat
  | _, [] => []
  | s, op :: ops => seqAfter s op :: seqNumbers (seqAfter s op) ops

/-- The backend's state once it has served a call: the RPC of the call applied
to the call's request. -/
def Call.serve {β : Type} (c : ListServiceClient β) (b : β) : Call → β
  | Call.Append r => (c.Append b r).2
  | Call.Insert r => (c.Insert b r).2
  | Call.Get r => (c.Get b r).2
  | Call.Remove r => (c.Remove b r).2
  | Call.Size r => (c.Size b r).2
  | Call.Iterate r => (c.Iterate b r).2
  | Call.Listen r => (c.Listen b r).2
  | Call.Clear r => (c.Clear b r).2

/-- A backend that answers as `c` does and keeps, beside the state of `c`, the
list of the requests it has received, in order of arrival. -/
def recording {β : Type} (c : ListServiceClient β) : ListServiceClient (β × List Call) where
  Append := fun b r => ((c.Append b.1 r).1, ((c.Append b.1 r).2, b.2 ++ [Call.Append r]))
  Insert := fun b r => ((c.Insert b.1 r).1, ((c.Insert b.1 r).2, b.2 ++ [Call.Insert r]))
  Get := fun b r => ((c.Get b.1 r).1, ((c.Get b.1 r).2, b.2 ++ [Call.Get r]))
  Remove := fun b r => ((c.Remove b.1 r).1, ((c.Remove b.1 r).2, b.2 ++ [Call.Remove r]))
  Size := fun b r => ((c.Size b.1 r).1, ((c.Size b.1 r).2, b.2 ++ [Call.Size r]))
  Iterate := fun b r => ((c.Iterate b.1 r).1, ((c.Iterate b.1 r).2, b.2 ++ [Call.Iterate r]))
  Listen := fun b r => ((c.Listen b.1 r).1, ((c.Listen b.1 r).2, b.2 ++ [Call.Listen r]))
  Clear := fun b r => ((c.Clear b.1 r).1, ((c.Clear b.1 r).2, b.2 ++ [Call.Clear r]))

/-- The handle `l` talking to the recording backend built on its own client. -/
def list.recorded {β : Type} (l : list β) : list (β × List Call) :=
  ⟨l.name, recording l.client, l.session⟩

/-- The world `w` with the recording backend having received `seen` so far. -/
def recordedWorld {β : Type} (w : World β Call) (seen : List Call) :
    World (β × List Call) Call :=
  ⟨(w.backend, seen), w.calls⟩

/-- The header the specification gives an operation: the next header for a
mutating or stream-subscribing call, the current header for a read-only one. -/
def headerFor (s : session.Session) (op : Op) : RequestHeader :=
  if op.sequenced then s.NextHeader.1 else s.GetHeader

/-- The session once `op` has taken its header. -/
def sessionAfter (s : session.Session) (op : Op) : session.Session :=
  if op.sequenced then s.NextHeader.2 else s

/-- The call the specification expects of an operation on a session `s`: the RPC
of the operation, with the header the specification gives it and the operation's
arguments, an index being converted with `uint32`. -/
def expectedCall (s : session.Session) : Op → Call
  | Op.Append value => Call.Append ⟨headerFor s (Op.Append value), value⟩
  | Op.Insert index value =>
    Call.Insert ⟨headerFor s (Op.Insert index value), uint32 index, value⟩
  | Op.Get index => Call.Get ⟨headerFor s (Op.Get index), uint32 index⟩
  | Op.Remove index => Call.Remove ⟨headerFor s (Op.Remove index), uint32 index⟩
  | Op.Size => Call.Size ⟨headerFor s Op.Size⟩
  | Op.Items => Call.Iterate ⟨headerFor s Op.Items⟩
  | Op.Listen => Call.Listen ⟨headerFor s Op.Listen⟩
  | Op.Clear => Call.Clear ⟨headerFor s Op.Clear⟩

/-- The calls the specification expects of a run of operations. -/
def expectedCalls : session.Session → List Op → List Call
  | _, [] => []
  | s, op :: ops => expectedCall s op :: expectedCalls (sessionAfter s op) ops

end list

namespace counter

/-! ## `pkg/client/counter/session.go` -/

/-- Message `api.CreateRequest`. -/
structure CreateRequest where
  Header : RequestHeader
deriving DecidableEq, Repr

/-- Message `api.CloseRequest`; `Delete` has the zero value `false` unless set. -/
structure CloseRequest where
  Header : RequestHeader
  Delete : Bool := false
deriving DecidableEq, Repr

/-- An RPC issued on the counter service, with its request. -/
inductive Call where
  | Create (request : CreateRequest)
  | Close (request : CloseRequest)
deriving DecidableEq, Repr

/-- Go interface `api.CounterServiceClient`, the RPCs the handler uses, as a
state-passing backend; of `(response, err)` the handler reads only `err`. -/
structure CounterServiceClient (β : Type) where
  Create : β → CreateRequest → Option Error × β
  Close : β → CloseRequest → Option Error × β

/-- Go `type sessionHandler struct`. -/
structure sessionHandler (β : Type) where
  client : CounterServiceClient β

/-- Go `(*sessionHandler).Create`. -/
def sessionHandler.Create {β : Type} (m : sessionHandler β) (s : session.Session)
    (w : World β Call) : Option Error × World β Call :=
  let request : CreateRequest := { Header := s.GetState }
  let r := m.client.Create w.backend request
  match r.1 with
  | some err => (some err, ⟨r.2, w.calls ++ [Call.Create request]⟩)
  | none => (none, ⟨r.2, w.calls ++ [Call.Create request]⟩)

/-- Go `(*sessionHandler).KeepAlive`. -/
def sessionHandler.KeepAlive {β : Type} (_m : sessionHandler β) (_s : session.Session)
    (w : World β Call) : Option Error × World β Call :=
  (none, w)

/-- Go `(*sessionHandler).Close`. -/
def sessionHandler.Close {β : Type} (m : sessionHandler β) (s : session.Session)
    (w : World β Call) : Option Error × World β Call :=
  let request : CloseRequest := { Header := s.GetState }
  let r := m.client.Close w.backend request
  (r.1, ⟨r.2, w.calls ++ [Call.Close request]⟩)

/-- Go `(*sessionHandler).Delete`. -/
def sessionHandler.Delete {β : Type} (m : sessionHandler β) (s : session.Session)
    (w : World β Call) : Option Error × World β Call :=
  let request : CloseRequest := { Header := s.GetState, Delete := true }
  let r := m.client.Close w.backend request
  (r.1, ⟨r.2, w.calls ++ [Call.Close request]⟩)

/-- The counter handler as a `session.Handler`. -/
def sessionHandler.handler {β : Type} (m : sessionHandler β) : session.Handler β Call :=
  ⟨m.Create, m.KeepAlive, m.Close, m.Delete⟩

end counter

namespace set

/-! ## `pkg/atomix/set/options.go` -/

/-- Message `api.EventsRequest`: the `Replay` flag and, as `rest`, every other
field of the message (its declaration is outside the embedded files). -/
structure EventsRequest (ρ : Type) where
  Replay : Bool
  rest : ρ

/-- Go interface `WatchOption`; a method that mutates its argument through the
pointer is a function to the mutated value. `σ` is `api.EventsResponse`. -/
structure WatchOption (ρ σ : Type) where
  beforeWatch : EventsRequest ρ → EventsRequest ρ
  afterWatch : σ → σ

/-- Go `(replayOption).beforeWatch`. -/
def replayOption.beforeWatch {ρ : Type} (request : EventsRequest ρ) : EventsRequest ρ :=
  { request with Replay := true }

/-- Go `(replayOption).afterWatch`. -/
def replayOption.afterWatch {σ : Type} (response : σ) : σ :=
  response

/-- Go `WithReplay`. -/
def WithReplay {ρ σ : Type} : WatchOption ρ σ :=
  ⟨replayOption.beforeWatch, replayOption.afterWatch⟩

end set

/-! ## Properties of the receive loops -/

namespace list

theorem delivered_append {ε : Type} (xs ys : List (Effect ε)) :
    delivered (xs ++ ys) = delivered xs ++ delivered ys := by
  induction xs with
  | nil => rfl
  | cons x xs ih => cases x <;> simp [delivered, ih]

theorem waits_append {ε : Type} (xs ys : List (Effect ε)) :
    waits (xs ++ ys) = waits xs ++ waits ys := by
  induction xs with
  | nil => rfl
  | cons x xs ih => cases x <;> simp [waits, ih]

theorem recvLoop_cons_continue {α ε : Type}
    (body : Nat → Recv α → List (Effect ε) × Option LoopEnd) (n : Nat) (x : Recv α)
    (rest : List (Recv α)) (effects : List (Effect ε)) (h : body n x = (effects, none)) :
    recvLoop body n (x :: rest)
      = (effects ++ (recvLoop body (n + 1) rest).1, (recvLoop body (n + 1) rest).2) := by
  simp [recvLoop, h]

theorem recvLoop_cons_stop {α ε : Type}
    (body : Nat → Recv α → List (Effect ε) × Option LoopEnd) (n : Nat) (x : Recv α)
    (rest : List (Recv α)) (effects : List (Effect ε)) (e : LoopEnd)
    (h : body n x = (effects, some e)) :
    recvLoop body n (x :: rest) = (effects, e) := by
  simp [recvLoop, h]

theorem listenBody_received_nil (WaitStream : Nat → StreamHeader → WaitResult) (n : Nat)
    (response : EventResponse) (h : response.Header.Streams = []) :
    listenBody WaitStream n (received response)
      = ([Effect.send (eventOf response)], none) := by
  simp [listenBody, received, eventOf, h]

theorem listenBody_received_cons (WaitStream : Nat → StreamHeader → WaitResult) (n : Nat)
    (response : EventResponse) (stream : StreamHeader) (more : List StreamHeader)
    (h : response.Header.Streams = stream :: more) :
    listenBody WaitStream n (received response)
      = match WaitStream n stream with
        | WaitResult.value =>
          ([Effect.waitStream stream, Effect.send (eventOf response)], none)
        | WaitResult.closed => ([Effect.waitStream stream], none)
        | WaitResult.blocked => ([Effect.waitStream stream], some LoopEnd.blockedWait) := by
  simp only [listenBody, received, eventOf, h]
  cases WaitStream n stream <;> simp

/-- C1. In the receive loop of `Listen`, a received response whose header carries
no stream headers is sent to the caller's channel and `WaitStream` is not invoked:
the iteration's only effect is the send (so it is the same for every behaviour of
`WaitStream`), and the loop goes on with the next `Recv()`. -/
theorem listen_delivers_without_wait_when_no_streams
    (WaitStream : Nat → StreamHeader → WaitResult) (n : Nat) (response : EventResponse)
    (rest : List (Recv EventResponse)) (h : response.Header.Streams.length = 0) :
    listenBody WaitStream n (received response)
        = ([Effect.send ⟨eventType response.Type_, response.Value⟩], none)
      ∧ waits (listenBody WaitStream n (received response)).1 = []
      ∧ delivered (listenBody WaitStream n (received response)).1
          = [⟨eventType response.Type_, response.Value⟩]
      ∧ listenLoop WaitStream n (received response :: rest)
          = (Effect.send ⟨eventType response.Type_, response.Value⟩
              :: (listenLoop WaitStream (n + 1) rest).1,
             (listenLoop WaitStream (n + 1) rest).2) := by
  have h0 : response.Header.Streams = [] := List.length_eq_zero.mp h
  have hb := listenBody_received_nil WaitStream n response h0
  refine ⟨hb, ?_, ?_, ?_⟩
  · rw [hb]; rfl
  · rw [hb]; rfl
  · unfold listenLoop
    rw [recvLoop_cons_continue _ _ _ _ _ hb]
    rfl

/-- C2. In the receive loop of `Listen`, for a received response that carries
stream headers, the iteration first waits on the first stream header and sends
the event only after, and only if, that wait yields a value; when the wait is
released without a value nothing is sent and the loop goes on with the next
`Recv()`; when the wait never resolves nothing is sent either. -/
theorem listen_delivers_iff_wait_yields_value
    (WaitStream : Nat → StreamHeader → WaitResult) (n : Nat) (response : EventResponse)
    (stream : StreamHeader) (more : List StreamHeader) (rest : List (Recv EventResponse))
    (h : response.Header.Streams = stream :: more) :
    (listenBody WaitStream n (received response)).1
        = Effect.waitStream stream ::
            (if WaitStream n stream = WaitResult.value
              then [Effect.send ⟨eventType response.Type_, response.Value⟩] else [])
      ∧ waits (listenBody WaitStream n (received response)).1 = [stream]
      ∧ (delivered (listenBody WaitStream n (received response)).1
            = [⟨eventType response.Type_, response.Value⟩]
          ↔ WaitStream n stream = WaitResult.value)
      ∧ (delivered (listenBody WaitStream n (received response)).1 = []
          ↔ WaitStream n stream ≠ WaitResult.value)
      ∧ (WaitStream n stream = WaitResult.value →
          listenLoop WaitStream n (received response :: rest)
            = (Effect.waitStream stream
                :: Effect.send ⟨eventType response.Type_, response.Value⟩
                :: (listenLoop WaitStream (n + 1) rest).1,
               (listenLoop WaitStream (n + 1) rest).2))
      ∧ (WaitStream n stream = WaitResult.closed →
          listenLoop WaitStream n (received response :: rest)
            = (Effect.waitStream stream :: (listenLoop WaitStream (n + 1) rest).1,
               (listenLoop WaitStream (n + 1) rest).2))
      ∧ (WaitStream n stream = WaitResult.blocked →
          listenLoop WaitStream n (received response :: rest)
            = ([Effect.waitStream stream], LoopEnd.blockedWait)) := by
  have hb := listenBody_received_cons WaitStream n response stream more h
  unfold listenLoop
  cases hw : WaitStream n stream <;> rw [hw] at hb <;> simp only at hb
  · refine ⟨?_, ?_, ?_, ?_, ?_, ?_, ?_⟩
    · rw [hb]; simp [eventOf]
    · rw [hb]; rfl
    · rw [hb]; simp [delivered, eventOf]
    · rw [hb]; simp [delivered]
    · intro _; rw [recvLoop_cons_continue _ _ _ _ _ hb]; rfl
    · intro hc; cases hc
    · intro hc; cases hc
  · refine ⟨?_, ?_, ?_, ?_, ?_, ?_, ?_⟩
    · rw [hb]; simp
    · rw [hb]; rfl
    · rw [hb]; simp [delivered]
    · rw [hb]; simp [delivered]
    · intro hc; cases hc
    · intro _; rw [recvLoop_cons_continue _ _ _ _ _ hb]; rfl
    · intro hc; cases hc
  · refine ⟨?_, ?_, ?_, ?_, ?_, ?_, ?_⟩
    · rw [hb]; simp
    · rw [hb]; rfl
    · rw [hb]; simp [delivered]
    · rw [hb]; simp [delivered]
    · intro hc; cases hc
    · intro hc; cases hc
    · intro _; rw [recvLoop_cons_stop _ _ _ _ _ _ hb]

theorem listenLoop_received_cons (WaitStream : Nat → StreamHeader → WaitResult) (n : Nat)
    (r : EventResponse) (rest : List (Recv EventResponse)) :
    listenLoop WaitStream n (received r :: rest)
      = match r.Header.Streams with
        | [] =>
          (Effect.send (eventOf r) :: (listenLoop WaitStream (n + 1) rest).1,
            (listenLoop WaitStream (n + 1) rest).2)
        | stream :: _ =>
          match WaitStream n stream with
          | WaitResult.value =>
            (Effect.waitStream stream :: Effect.send (eventOf r)
                :: (listenLoop WaitStream (n + 1) rest).1,
              (listenLoop WaitStream (n + 1) rest).2)
          | WaitResult.closed =>
            (Effect.waitStream stream :: (listenLoop WaitStream (n + 1) rest).1,
              (listenLoop WaitStream (n + 1) rest).2)
          | WaitResult.blocked => ([Effect.waitStream stream], LoopEnd.blockedWait) := by
  unfold listenLoop
  cases hs : r.Header.Streams with
  | nil =>
    rw [recvLoop_cons_continue _ _ _ _ _ (listenBody_received_nil WaitStream n r hs)]
    rfl
  | cons stream more =>
    have hb := listenBody_received_cons WaitStream n r stream more hs
    cases hw : WaitStream n stream with
    | value =>
      rw [hw] at hb
      rw [recvLoop_cons_continue _ _ _ _ _ hb]
      simp only [hw]
      rfl
    | closed =>
      rw [hw] at hb
      rw [recvLoop_cons_continue _ _ _ _ _ hb]
      simp only [hw]
      rfl
    | blocked =>
      rw [hw] at hb
      rw [recvLoop_cons_stop _ _ _ _ _ _ hb]
      simp only [hw]

theorem listenLoop_received_all (WaitStream : Nat → StreamHeader → WaitResult)
    (tail : List (Recv EventResponse))
    (htail : ∀ m, delivered (listenLoop WaitStream m tail).1 = []) :
    ∀ (rs : List EventResponse) (n : Nat),
      (listenLoop WaitStream n (rs.dropLast.map received)).2 = LoopEnd.blockedRecv →
      delivered (listenLoop WaitStream n (rs.map received ++ tail)).1
        = ((rs.enumFrom n).filter (fun p => passesGate WaitStream p.1 p.2)).map
            (fun p => eventOf p.2) := by
  intro rs
  induction rs with
  | nil => intro n _; simp [htail]
  | cons r rs ih =>
    intro n hrecv
    simp only [List.map_cons, List.cons_append, List.enumFrom_cons]
    rw [listenLoop_received_cons]
    cases rs with
    | nil =>
      cases hs : r.Header.Streams with
      | nil => simp [delivered, passesGate, hs, htail]
      | cons stream more =>
        cases hw : WaitStream n stream <;>
          simp [delivered, passesGate, hs, hw, htail]
    | cons r1 rs1 =>
      rw [List.dropLast_cons₂, List.map_cons, listenLoop_received_cons] at hrecv
      cases hs : r.Header.Streams with
      | nil =>
        simp only [hs] at hrecv
        have hi := ih (n + 1) hrecv
        simp only [List.map_cons, List.cons_append] at hi
        simp [delivered, passesGate, hs, hi]
      | cons stream more =>
        cases hw : WaitStream n stream with
        | value =>
          simp only [hs, hw] at hrecv
          have hi := ih (n + 1) hrecv
          simp only [List.map_cons, List.cons_append] at hi
          simp [delivered, passesGate, hs, hw, hi]
        | closed =>
          simp only [hs, hw] at hrecv
          have hi := ih (n + 1) hrecv
          simp only [List.map_cons, List.cons_append] at hi
          simp [delivered, passesGate, hs, hw, hi]
        | blocked =>
          simp only [hs, hw] at hrecv
          cases hrecv

/-- C9. When `Listen` receives the responses `rs` without error (the loop gets
back to `Recv()` after each of them but possibly the last), the events sent on
the caller's channel are exactly the responses that pass the delivery gate, in
the order received and each at most once, whether or not the stream then ends;
an event carries the response's value unchanged and the type "added" for ADDED,
"removed" for REMOVED. -/
theorem listen_delivers_exactly_the_gated_responses_in_order
    (WaitStream : Nat → StreamHeader → WaitResult) (n : Nat) (rs : List EventResponse)
    (hrecv : (listenLoop WaitStream n (rs.dropLast.map received)).2 = LoopEnd.blockedRecv) :
    delivered (listenLoop WaitStream n (rs.map received)).1
        = ((rs.enumFrom n).filter (fun p => passesGate WaitStream p.1 p.2)).map
            (fun p => (⟨eventType p.2.Type_, p.2.Value⟩ : ListEvent))
      ∧ delivered (listenLoop WaitStream n (rs.map received ++ [⟨none, some Error.EOF⟩])).1
        = ((rs.enumFrom n).filter (fun p => passesGate WaitStream p.1 p.2)).map
            (fun p => (⟨eventType p.2.Type_, p.2.Value⟩ : ListEvent))
      ∧ List.Sublist (delivered (listenLoop WaitStream n (rs.map received)).1)
          (rs.map (fun r => (⟨eventType r.Type_, r.Value⟩ : ListEvent)))
      ∧ eventType EventResponse_Type.ADDED = "added"
      ∧ eventType EventResponse_Type.REMOVED = "removed" := by
  have h1 := listenLoop_received_all WaitStream [] (fun _ => rfl) rs n hrecv
  have h2 := listenLoop_received_all WaitStream [⟨none, some Error.EOF⟩] (fun _ => rfl)
    rs n hrecv
  rw [List.append_nil] at h1
  have hev : (fun p : Nat × EventResponse => eventOf p.2)
      = (fun p => (⟨eventType p.2.Type_, p.2.Value⟩ : ListEvent)) := rfl
  rw [hev] at h1 h2
  refine ⟨h1, h2, ?_, rfl, rfl⟩
  rw [h1]
  have hsub := List.Sublist.map
    (fun p : Nat × EventResponse => (⟨eventType p.2.Type_, p.2.Value⟩ : ListEvent))
    (List.filter_sublist (p := fun p => passesGate WaitStream p.1 p.2) (rs.enumFrom n))
  have hmap : (rs.enumFrom n).map
      (fun p : Nat × EventResponse => (⟨eventType p.2.Type_, p.2.Value⟩ : ListEvent))
      = rs.map (fun r => (⟨eventType r.Type_, r.Value⟩ : ListEvent)) := by
    conv_rhs => rw [← List.enumFrom_map_snd n rs, List.map_map]
    rfl
  rw [hmap] at hsub
  exact hsub

/-- C3. A receive that fails with a transport error does not end the stream in
either loop. With the response `nil`, as a gRPC stream returns it, the goroutine
logs the error and then panics on `response.Value` / `response.Type`, without
closing the channel; with a response present, the loop logs the error, sends the
value of the failed receive and goes on to deliver what follows. -/
theorem recv_error_is_logged_but_loop_goes_on :
    itemsLoop [⟨none, some (Error.Other "unavailable")⟩, received ⟨"b"⟩]
        = ([Effect.logError "Failed to receive items stream" (Error.Other "unavailable")],
           LoopEnd.panicked)
      ∧ itemsLoop [⟨some ⟨"a"⟩, some (Error.Other "unavailable")⟩, received ⟨"b"⟩,
            ⟨none, some Error.EOF⟩]
        = ([Effect.logError "Failed to receive items stream" (Error.Other "unavailable"),
            Effect.send "a", Effect.send "b", Effect.closeChan], LoopEnd.eof)
      ∧ listenLoop (fun _ _ => WaitResult.value) 0
          [⟨none, some (Error.Other "unavailable")⟩,
           received ⟨⟨[]⟩, EventResponse_Type.ADDED, "b"⟩]
        = ([Effect.logError "Failed to receive event stream" (Error.Other "unavailable")],
           LoopEnd.panicked)
      ∧ listenLoop (fun _ _ => WaitResult.value) 0
          [⟨some ⟨⟨[]⟩, EventResponse_Type.ADDED, "a"⟩, some (Error.Other "unavailable")⟩,
           received ⟨⟨[]⟩, EventResponse_Type.REMOVED, "b"⟩, ⟨none, some Error.EOF⟩]
        = ([Effect.logError "Failed to receive event stream" (Error.Other "unavailable"),
            Effect.send ⟨"added", "a"⟩, Effect.send ⟨"removed", "b"⟩], LoopEnd.eof) := by
  refine ⟨?_, ?_, ?_, ?_⟩ <;> decide

/-! ## Sequencing of the requests of a list handle -/

theorem perform_eq {β : Type} (l : list β) (w : World β Call) (op : Op) :
    list.perform (l, w) op
      = ({ l with session := sessionAfter l.session op },
         ⟨Call.serve l.client w.backend (expectedCall l.session op),
          w.calls ++ [expectedCall l.session op]⟩) := by
  cases op with
  | Append value => rfl
  | Insert index value => rfl
  | Get index =>
    simp only [list.perform, list.Get]
    split <;> rfl
  | Remove index =>
    simp only [list.perform, list.Remove]
    split <;> rfl
  | Size =>
    simp only [list.perform, list.Size]
    split <;> rfl
  | Items =>
    simp only [list.perform, list.Items]
    split <;> rfl
  | Listen =>
    simp only [list.perform, list.Listen]
    split <;> rfl
  | Clear => rfl

theorem run_eq {β : Type} (ops : List Op) :
    ∀ (l : list β) (w : World β Call),
      list.run l w ops
        = ({ l with session := ops.foldl sessionAfter l.session },
           ⟨(expectedCalls l.session ops).foldl (Call.serve l.client) w.backend,
            w.calls ++ expectedCalls l.session ops⟩) := by
  induction ops with
  | nil => intro l w; simp [list.run, expectedCalls]
  | cons op ops ih =>
    intro l w
    have hstep : list.run l w (op :: ops)
        = list.run (list.perform (l, w) op).1 (list.perform (l, w) op).2 ops := by
      simp [list.run]
    rw [hstep, perform_eq, ih]
    simp [expectedCalls]

theorem sent_eq {β : Type} (l : list β) (w : World β Call) (ops : List Op) :
    list.sent l w ops = expectedCalls l.session ops := by
  simp [list.sent, run_eq]

theorem serve_recording {β : Type} (c : ListServiceClient β) (b : β) (seen : List Call)
    (call : Call) :
    Call.serve (recording c) (b, seen) call = (Call.serve c b call, seen ++ [call]) := by
  cases call <;> rfl

theorem foldl_serve_recording {β : Type} (c : ListServiceClient β) (calls : List Call) :
    ∀ (b : β) (seen : List Call),
      calls.foldl (Call.serve (recording c)) (b, seen)
        = (calls.foldl (Call.serve c) b, seen ++ calls) := by
  induction calls with
  | nil => intro b seen; simp
  | cons call calls ih =>
    intro b seen
    rw [List.foldl_cons, serve_recording, ih]
    simp

theorem expectedCall_sequence (s : session.Session) (op : Op) :
    (expectedCall s op).Header.SequenceNumber = seqAfter s.sequence op
      ∧ (sessionAfter s op).sequence = seqAfter s.sequence op := by
  cases op <;> exact ⟨rfl, rfl⟩

theorem expectedCalls_sequence (ops : List Op) :
    ∀ s : session.Session,
      (expectedCalls s ops).map (fun c => c.Header.SequenceNumber)
        = seqNumbers s.sequence ops := by
  induction ops with
  | nil => intro s; rfl
  | cons op ops ih =>
    intro s
    simp only [expectedCalls, List.map_cons, seqNumbers]
    rw [ih, (expectedCall_sequence s op).1, (expectedCall_sequence s op).2]

theorem foldl_sessionAfter_sequence (ops : List Op) :
    ∀ s : session.Session,
      (ops.foldl sessionAfter s).sequence = s.sequence + ops.countP Op.sequenced := by
  induction ops with
  | nil => intro s; simp
  | cons op ops ih =>
    intro s
    rw [List.foldl_cons, ih, (expectedCall_sequence s op).2]
    cases h : op.sequenced
    · simp [seqAfter, h, List.countP_cons]
    · simp [seqAfter, h, List.countP_cons]; omega

theorem seqNumbers_length (ops : List Op) : ∀ s, (seqNumbers s ops).length = ops.length := by
  induction ops with
  | nil => intro s; rfl
  | cons op ops ih => intro s; simp [seqNumbers, ih]

theorem seqNumbers_closed_form (ops : List Op) :
    ∀ s, seqNumbers s ops
      = (List.range ops.length).map (fun k => s + (ops.take (k + 1)).countP Op.sequenced) := by
  induction ops with
  | nil => intro s; rfl
  | cons op ops ih =>
    intro s
    rw [seqNumbers, ih, List.length_cons, List.range_succ_eq_map, List.map_cons, List.map_map]
    congr 1
    · cases h : op.sequenced <;> simp [seqAfter, h, List.countP_cons]
    · apply List.map_congr_left
      intro k _
      cases h : op.sequenced
      · simp [seqAfter, h, List.countP_cons]
      · simp [seqAfter, h, List.countP_cons]; omega

theorem seqNumbers_ge (ops : List Op) : ∀ s, ∀ x ∈ seqNumbers s ops, s ≤ x := by
  induction ops with
  | nil => intro s x hx; simp [seqNumbers] at hx
  | cons op ops ih =>
    intro s x hx
    have hs : s ≤ seqAfter s op := by
      unfold seqAfter; split <;> omega
    simp only [seqNumbers, List.mem_cons] at hx
    rcases hx with hx | hx
    · omega
    · exact le_trans hs (ih _ x hx)

theorem seqNumbers_pairwise (ops : List Op) :
    ∀ s, List.Pairwise (fun a b => a ≤ b) (seqNumbers s ops) := by
  induction ops with
  | nil => intro s; exact List.Pairwise.nil
  | cons op ops ih =>
    intro s
    simp only [seqNumbers]
    exact List.Pairwise.cons (fun x hx => seqNumbers_ge ops _ x hx) (ih _)

theorem seqNumbers_sequenced (ops : List Op) :
    ∀ s, ((ops.zip (seqNumbers s ops)).filter (fun p => p.1.sequenced)).map (fun p => p.2)
      = List.range' (s + 1) (ops.countP Op.sequenced) := by
  induction ops with
  | nil => intro s; rfl
  | cons op ops ih =>
    intro s
    simp only [seqNumbers, List.zip_cons_cons]
    cases h : op.sequenced
    · simp [List.filter_cons, h, seqAfter, ih, List.countP_cons]
    · simp [List.filter_cons, h, seqAfter, ih, List.countP_cons, List.range'_succ]

/-- C5. With the session a counter that `NextHeader` increments and returns and
`GetHeader` returns unchanged: a sequence of operations on one list handle sends
the backend one request per operation, the RPC of that operation with the
specification's header for it, and nothing else: the backend ends in the state
reached by serving exactly these requests in order, and a backend that records
what it receives has received exactly them. The request of the k-th operation
carries the initial sequence number plus the number of mutating or
stream-subscribing operations (Append, Insert, Remove, Clear, Listen) among the
first k, itself included; hence the numbers of those operations are consecutive
from the initial number plus one, a read-only operation (Get, Size, Items)
carries the last-issued number without advancing it, and the numbers never
decrease along the run. -/
theorem list_request_sequence_numbers {β : Type} (l : list β) (w : World β Call)
    (ops : List Op) :
    (list.run l w ops).2.calls = w.calls ++ list.sent l w ops
      ∧ (list.sent l w ops).length = ops.length
      ∧ (list.sent l w ops).map (fun c => c.Header.SequenceNumber)
          = (List.range ops.length).map
              (fun k => l.session.sequence + (ops.take (k + 1)).countP Op.sequenced)
      ∧ ((ops.zip ((list.sent l w ops).map (fun c => c.Header.SequenceNumber))).filter
            (fun p => p.1.sequenced)).map (fun p => p.2)
          = List.range' (l.session.sequence + 1) (ops.countP Op.sequenced)
      ∧ List.Pairwise (fun a b => a ≤ b)
          ((list.sent l w ops).map (fun c => c.Header.SequenceNumber))
      ∧ (list.run l w ops).1.session.sequence
          = l.session.sequence + ops.countP Op.sequenced
      ∧ list.sent l w ops = expectedCalls l.session ops
      ∧ (list.run l w ops).2.backend
          = (list.sent l w ops).foldl (Call.serve l.client) w.backend
      ∧ (∀ seen : List Call,
          (list.run l.recorded (recordedWorld w seen) ops).2.backend.2
            = seen ++ list.sent l w ops)
      ∧ (∀ seen : List Call,
          ((list.run l.recorded (recordedWorld w seen) ops).2.backend.2.drop seen.length).map
              (fun c => c.Header.SequenceNumber)
            = (List.range ops.length).map
                (fun k => l.session.sequence + (ops.take (k + 1)).countP Op.sequenced)) := by
  have hsent := sent_eq l w ops
  have hseq := expectedCalls_sequence ops l.session
  have hrec : ∀ seen : List Call,
      (list.run l.recorded (recordedWorld w seen) ops).2.backend.2
        = seen ++ expectedCalls l.session ops := by
    intro seen
    rw [run_eq]
    simp only [list.recorded, recordedWorld]
    rw [foldl_serve_recording]
  refine ⟨?_, ?_, ?_, ?_, ?_, ?_, hsent, ?_, ?_, ?_⟩
  · rw [hsent, run_eq]
  · rw [hsent]
    have := congrArg List.length hseq
    rw [List.length_map, seqNumbers_length] at this
    exact this
  · rw [hsent, hseq, seqNumbers_closed_form]
  · rw [hsent, hseq, seqNumbers_sequenced]
  · rw [hsent, hseq]; exact seqNumbers_pairwise ops _
  · rw [run_eq]; exact foldl_sessionAfter_sequence ops l.session
  · rw [hsent, run_eq]
  · intro seen; rw [hrec, hsent]
  · intro seen
    rw [hrec, List.drop_left, hseq, seqNumbers_closed_form]

/-- C10. For every `int` index, `Insert`, `Get` and `Remove` hand the backend a
request whose `Index` is `uint32(index)`, that is index mod 2^32: the error or
value they return and the state the backend is left in are those of the backend's
`Insert`, `Get` or `Remove` applied to exactly that request, and a backend that
records what it receives has received exactly that request. The index sent is a
number below 2^32 that equals the index exactly when 0 <= index < 2^32, so a
negative or too large index is sent, not rejected, as a different non-negative
index. -/
theorem list_index_is_sent_modulo_two_pow_32 {β : Type} (l : list β) (w : World β Call)
    (index : Int) (value : String) :
    (l.Insert w index value).2.2.calls
        = w.calls ++ [Call.Insert ⟨l.session.NextHeader.1, uint32 index, value⟩]
      ∧ (l.Get w index).2.2.calls
        = w.calls ++ [Call.Get ⟨l.session.GetHeader, uint32 index⟩]
      ∧ (l.Remove w index).2.2.calls
        = w.calls ++ [Call.Remove ⟨l.session.NextHeader.1, uint32 index⟩]
      ∧ (uint32 index : Int) = index % 2 ^ 32
      ∧ uint32 index < 2 ^ 32
      ∧ ((uint32 index : Int) = index ↔ 0 ≤ index ∧ index < 2 ^ 32)
      ∧ (index < 0 ∨ 2 ^ 32 ≤ index → (uint32 index : Int) ≠ index)
      ∧ (l.Insert w index value).1
          = (l.client.Insert w.backend ⟨l.session.NextHeader.1, uint32 index, value⟩).1
      ∧ (l.Insert w index value).2.2.backend
          = (l.client.Insert w.backend ⟨l.session.NextHeader.1, uint32 index, value⟩).2
      ∧ (l.Get w index).1
          = (match (l.client.Get w.backend ⟨l.session.GetHeader, uint32 index⟩).1 with
             | Except.error err => ("", some err)
             | Except.ok response => (response.Value, none))
      ∧ (l.Get w index).2.2.backend
          = (l.client.Get w.backend ⟨l.session.GetHeader, uint32 index⟩).2
      ∧ (l.Remove w index).1
          = (match (l.client.Remove w.backend ⟨l.session.NextHeader.1, uint32 index⟩).1 with
             | Except.error err => ("", some err)
             | Except.ok response => (response.Value, none))
      ∧ (l.Remove w index).2.2.backend
          = (l.client.Remove w.backend ⟨l.session.NextHeader.1, uint32 index⟩).2
      ∧ (∀ seen : List Call,
          (l.recorded.Insert (recordedWorld w seen) index value).2.2.backend.2
            = seen ++ [Call.Insert ⟨l.session.NextHeader.1, uint32 index, value⟩])
      ∧ (∀ seen : List Call,
          (l.recorded.Get (recordedWorld w seen) index).2.2.backend.2
            = seen ++ [Call.Get ⟨l.session.GetHeader, uint32 index⟩])
      ∧ (∀ seen : List Call,
          (l.recorded.Remove (recordedWorld w seen) index).2.2.backend.2
            = seen ++ [Call.Remove ⟨l.session.NextHeader.1, uint32 index⟩]) := by
  have hmod : (uint32 index : Int) = index % 2 ^ 32 := by
    unfold uint32
    rw [Int.toNat_of_nonneg (Int.emod_nonneg _ (by norm_num))]
    norm_num
  have hlt : (uint32 index : Int) < 2 ^ 32 := by
    rw [hmod]; exact Int.emod_lt_of_pos _ (by norm_num)
  have hiff : (uint32 index : Int) = index ↔ 0 ≤ index ∧ index < 2 ^ 32 := by
    constructor
    · intro h
      rw [← h]
      exact ⟨Int.ofNat_nonneg _, hlt⟩
    · intro h
      rw [hmod]
      exact Int.emod_eq_of_lt h.1 h.2
  refine ⟨rfl, ?_, ?_, hmod, ?_, hiff, ?_, rfl, rfl, ?_, ?_, ?_, ?_, ?_, ?_, ?_⟩
  · simp only [list.Get]; split <;> rfl
  · simp only [list.Remove]; split <;> rfl
  · exact_mod_cast hlt
  · intro h hc
    have := hiff.mp hc
    omega
  · simp only [list.Get]; split <;> simp_all
  · simp only [list.Get]; split <;> rfl
  · simp only [list.Remove]; split <;> simp_all
  · simp only [list.Remove]; split <;> rfl
  · intro seen; rfl
  · intro seen; simp only [list.Get]; split <;> rfl
  · intro seen; simp only [list.Remove]; split <;> rfl

/-- C7. When the partition list is empty or the primitive name is empty, routing
fails with the invalid-argument error and `New` returns that error and no list:
no partition is indexed, no session is created, and the backend and its call log
are untouched. -/
theorem new_fails_when_routing_is_invalid {β : Type} (hash : String → Nat)
    (handlerOf : ListServiceClient β → session.Handler β Call)
    (name : primitive.Name) (partitions : List (ListServiceClient β)) (w : World β Call)
    (h : partitions.length = 0 ∨ name.Name = "") :
    util.GetPartitionIndex hash name.Name partitions.length
        = Except.error Error.InvalidArgument
      ∧ New hash handlerOf name partitions w = (Outcome.error Error.InvalidArgument, [], w) := by
  have hr : util.GetPartitionIndex hash name.Name partitions.length
      = Except.error Error.InvalidArgument := by
    unfold util.GetPartitionIndex
    rw [if_pos h]
  refine ⟨hr, ?_⟩
  unfold New
  rw [hr]

end list

namespace counter

/-! ## Properties of the counter session handler -/

/-- C4. For every session and every backend, `Close` and `Delete` of the counter
session handler each issue exactly one backend `Close` call whose header is the
session's current state, with `Delete = false` for `Close` and `Delete = true` for
`Delete`, and each returns exactly the error the backend returned for that call;
they differ in nothing but the flag of the request. -/
theorem counter_delete_is_close_with_the_delete_flag {β : Type} (m : sessionHandler β)
    (s : session.Session) (w : World β Call) :
    (m.Close s w).2.calls = w.calls ++ [Call.Close ⟨s.GetState, false⟩]
      ∧ (m.Delete s w).2.calls = w.calls ++ [Call.Close ⟨s.GetState, true⟩]
      ∧ (m.Close s w).1 = (m.client.Close w.backend ⟨s.GetState, false⟩).1
      ∧ (m.Delete s w).1 = (m.client.Close w.backend ⟨s.GetState, true⟩).1
      ∧ (m.Close s w).2.backend = (m.client.Close w.backend ⟨s.GetState, false⟩).2
      ∧ (m.Delete s w).2.backend = (m.client.Close w.backend ⟨s.GetState, true⟩).2 :=
  ⟨rfl, rfl, rfl, rfl, rfl, rfl⟩

/-- The handler itself keeps no record of a session being closed: called twice
on the same session it issues two backend `Close` calls. -/
theorem counter_handler_close_twice_calls_twice {β : Type} (m : sessionHandler β)
    (s : session.Session) (w : World β Call) :
    (m.Close s (m.Close s w).2).2.calls
      = w.calls ++ [Call.Close ⟨s.GetState, false⟩, Call.Close ⟨s.GetState, false⟩] := by
  simp [sessionHandler.Close]

/-- C6. Teardown through the session is idempotent. After a first `Close` of the
handle, a second `Close` or a `Delete` returns success and leaves the backend and
its call log as they were, whatever the handler; with the counter session handler
the two calls together add at most one backend call to the log, and from any state
but `CLOSED` exactly one, the `Close` request of the first call. -/
theorem teardown_is_idempotent {β κ : Type} (handler : session.Handler β κ)
    (m : sessionHandler β) (l : list.list β) (w : World β κ) (wc : World β Call) :
    (list.list.Close handler (list.list.Close handler l w).2.1
          (list.list.Close handler l w).2.2).1 = none
      ∧ (list.list.Close handler (list.list.Close handler l w).2.1
          (list.list.Close handler l w).2.2).2.2 = (list.list.Close handler l w).2.2
      ∧ (list.list.Delete handler (list.list.Close handler l w).2.1
          (list.list.Close handler l w).2.2).1 = none
      ∧ (list.list.Delete handler (list.list.Close handler l w).2.1
          (list.list.Close handler l w).2.2).2.2 = (list.list.Close handler l w).2.2
      ∧ (list.list.Close handler l w).2.1.session.state = session.Lifecycle.CLOSED
      ∧ (list.list.Close m.handler (list.list.Close m.handler l wc).2.1
          (list.list.Close m.handler l wc).2.2).2.2.calls.length ≤ wc.calls.length + 1
      ∧ (list.list.Delete m.handler (list.list.Close m.handler l wc).2.1
          (list.list.Close m.handler l wc).2.2).2.2.calls.length ≤ wc.calls.length + 1
      ∧ (l.session.state ≠ session.Lifecycle.CLOSED →
          (list.list.Delete m.handler (list.list.Close m.handler l wc).2.1
            (list.list.Close m.handler l wc).2.2).2.2.calls
            = wc.calls ++ [Call.Close ⟨l.session.GetState, false⟩]) := by
  have hclosed : ∀ {κ1 : Type} (h1 : session.Handler β κ1) (w1 : World β κ1),
      (list.list.Close h1 l w1).2.1.session.state = session.Lifecycle.CLOSED := by
    intro κ1 h1 w1
    simp only [list.list.Close, session.Session.Close]
    split
    · assumption
    · rfl
  have hnoopC : ∀ {κ1 : Type} (h1 : session.Handler β κ1) (l1 : list.list β)
      (w1 : World β κ1), l1.session.state = session.Lifecycle.CLOSED →
      (list.list.Close h1 l1 w1).1 = none ∧ (list.list.Close h1 l1 w1).2.2 = w1 := by
    intro κ1 h1 l1 w1 hs
    simp [list.list.Close, session.Session.Close, hs]
  have hnoopD : ∀ {κ1 : Type} (h1 : session.Handler β κ1) (l1 : list.list β)
      (w1 : World β κ1), l1.session.state = session.Lifecycle.CLOSED →
      (list.list.Delete h1 l1 w1).1 = none ∧ (list.list.Delete h1 l1 w1).2.2 = w1 := by
    intro κ1 h1 l1 w1 hs
    simp [list.list.Delete, session.Session.Delete, hs]
  have hfirst : (list.list.Close m.handler l wc).2.2.calls.length ≤ wc.calls.length + 1 := by
    simp only [list.list.Close, session.Session.Close]
    split
    · simp
    · simp [sessionHandler.handler, sessionHandler.Close]
  refine ⟨(hnoopC handler _ _ (hclosed handler w)).1, (hnoopC handler _ _ (hclosed handler w)).2,
    (hnoopD handler _ _ (hclosed handler w)).1, (hnoopD handler _ _ (hclosed handler w)).2,
    hclosed handler w, ?_, ?_, ?_⟩
  · rw [(hnoopC m.handler _ _ (hclosed m.handler wc)).2]; exact hfirst
  · rw [(hnoopD m.handler _ _ (hclosed m.handler wc)).2]; exact hfirst
  · intro hs
    rw [(hnoopD m.handler _ _ (hclosed m.handler wc)).2]
    simp [list.list.Close, session.Session.Close, hs, sessionHandler.handler,
      sessionHandler.Close, session.Session.GetState]

end counter

namespace set

/-! ## Properties of the set watch options -/

/-- C8. For every events request, `beforeWatch` of the option returned by
`WithReplay()` sets `Replay` to true and leaves every other field unchanged;
applying it twice equals applying it once; its `afterWatch` leaves the response
unchanged. -/
theorem with_replay_sets_only_the_replay_flag {ρ σ : Type} (request : EventsRequest ρ)
    (response : σ) :
    ((WithReplay : WatchOption ρ σ).beforeWatch request).Replay = true
      ∧ ((WithReplay : WatchOption ρ σ).beforeWatch request).rest = request.rest
      ∧ (WithReplay : WatchOption ρ σ).beforeWatch
          ((WithReplay : WatchOption ρ σ).beforeWatch request)
          = (WithReplay : WatchOption ρ σ).beforeWatch request
      ∧ (WithReplay : WatchOption ρ σ).afterWatch response = response :=
  ⟨rfl, rfl, rfl, rfl⟩

end set

namespace list

/-! ## The properties at concrete inputs -/

/-- C1 at a response without stream headers, with a `WaitStream` that would never
resolve: no wait is made and the event is sent. -/
theorem listen_delivers_without_wait_when_no_streams_witness :
    (⟨⟨[]⟩, EventResponse_Type.ADDED, "x"⟩ : EventResponse).Header.Streams.length = 0
      ∧ waits (listenBody (fun _ _ => WaitResult.blocked) 0
          (received ⟨⟨[]⟩, EventResponse_Type.ADDED, "x"⟩)).1 = []
      ∧ delivered (listenBody (fun _ _ => WaitResult.blocked) 0
          (received ⟨⟨[]⟩, EventResponse_Type.ADDED, "x"⟩)).1 = [⟨"added", "x"⟩] :=
  ⟨rfl,
    (listen_delivers_without_wait_when_no_streams (fun _ _ => WaitResult.blocked) 0
      ⟨⟨[]⟩, EventResponse_Type.ADDED, "x"⟩ [] rfl).2.1,
    (listen_delivers_without_wait_when_no_streams (fun _ _ => WaitResult.blocked) 0
      ⟨⟨[]⟩, EventResponse_Type.ADDED, "x"⟩ [] rfl).2.2.1⟩

/-- C2 at a response with two stream headers, once with the wait on the first
released without a value and once with it yielding a value. -/
theorem listen_delivers_iff_wait_yields_value_witness :
    (⟨⟨[⟨7, 3⟩, ⟨8, 9⟩]⟩, EventResponse_Type.REMOVED, "v"⟩ : EventResponse).Header.Streams
        = ⟨7, 3⟩ :: [⟨8, 9⟩]
      ∧ (listenBody (fun k s => if s.Index ≤ k then WaitResult.value else WaitResult.closed) 2
            (received ⟨⟨[⟨7, 3⟩, ⟨8, 9⟩]⟩, EventResponse_Type.REMOVED, "v"⟩)).1
          = [Effect.waitStream ⟨7, 3⟩]
      ∧ (listenBody (fun k s => if s.Index ≤ k then WaitResult.value else WaitResult.closed) 4
            (received ⟨⟨[⟨7, 3⟩, ⟨8, 9⟩]⟩, EventResponse_Type.REMOVED, "v"⟩)).1
          = [Effect.waitStream ⟨7, 3⟩, Effect.send ⟨"removed", "v"⟩] :=
  ⟨rfl,
    (listen_delivers_iff_wait_yields_value
      (fun k s => if s.Index ≤ k then WaitResult.value else WaitResult.closed) 2
      ⟨⟨[⟨7, 3⟩, ⟨8, 9⟩]⟩, EventResponse_Type.REMOVED, "v"⟩ ⟨7, 3⟩ [⟨8, 9⟩] [] rfl).1,
    (listen_delivers_iff_wait_yields_value
      (fun k s => if s.Index ≤ k then WaitResult.value else WaitResult.closed) 4
      ⟨⟨[⟨7, 3⟩, ⟨8, 9⟩]⟩, EventResponse_Type.REMOVED, "v"⟩ ⟨7, 3⟩ [⟨8, 9⟩] [] rfl).1⟩

/-- C9 at three responses of which the second is dropped by the gate. -/
theorem listen_delivers_exactly_the_gated_responses_in_order_witness :
    (listenLoop (fun k s => if s.Index ≤ k then WaitResult.value else WaitResult.closed) 0
        (([⟨⟨[]⟩, EventResponse_Type.ADDED, "a"⟩,
           ⟨⟨[⟨1, 5⟩]⟩, EventResponse_Type.REMOVED, "b"⟩,
           ⟨⟨[⟨1, 0⟩]⟩, EventResponse_Type.ADDED, "c"⟩] : List EventResponse).dropLast.map
          received)).2 = LoopEnd.blockedRecv
      ∧ delivered
          (listenLoop (fun k s => if s.Index ≤ k then WaitResult.value else WaitResult.closed) 0
            (([⟨⟨[]⟩, EventResponse_Type.ADDED, "a"⟩,
               ⟨⟨[⟨1, 5⟩]⟩, EventResponse_Type.REMOVED, "b"⟩,
               ⟨⟨[⟨1, 0⟩]⟩, EventResponse_Type.ADDED, "c"⟩] : List EventResponse).map
              received)).1
          = [⟨"added", "a"⟩, ⟨"added", "c"⟩] :=
  ⟨by decide,
    (listen_delivers_exactly_the_gated_responses_in_order
      (fun k s => if s.Index ≤ k then WaitResult.value else WaitResult.closed) 0
      [⟨⟨[]⟩, EventResponse_Type.ADDED, "a"⟩,
       ⟨⟨[⟨1, 5⟩]⟩, EventResponse_Type.REMOVED, "b"⟩,
       ⟨⟨[⟨1, 0⟩]⟩, EventResponse_Type.ADDED, "c"⟩] (by decide)).1.trans (by decide)⟩

/-- C7 at an empty partition list. -/
theorem new_fails_when_routing_is_invalid_witness :
    (([] : List (ListServiceClient Unit)).length = 0 ∨ (⟨"jobs"⟩ : primitive.Name).Name = "")
      ∧ New String.length
          (fun _ => ⟨fun _ w => (none, w), fun _ w => (none, w), fun _ w => (none, w),
            fun _ w => (none, w)⟩)
          ⟨"jobs"⟩ ([] : List (ListServiceClient Unit)) ⟨(), []⟩
        = (Outcome.error Error.InvalidArgument, [], ⟨(), []⟩) :=
  ⟨Or.inl rfl,
    (new_fails_when_routing_is_invalid String.length
      (fun _ => ⟨fun _ w => (none, w), fun _ w => (none, w), fun _ w => (none, w),
        fun _ w => (none, w)⟩)
      ⟨"jobs"⟩ ([] : List (ListServiceClient Unit)) ⟨(), []⟩ (Or.inl rfl)).2⟩

end list

end Atomix
